import Mathlib

/-!
Verification of the rotating proxy gateway (server.js) of the Website-VPN
repository.  The gateway's pure decision logic — token validation, CORS
header selection, hop-by-hop header sanitization, FNV-based sticky node
selection, round-robin rotation, and the /proxy endpoint pipeline — is
embedded shallowly below; JavaScript strings are Lean `String`s, JS objects
holding headers are association lists, and the mutable round-robin counter
is threaded explicitly.
-/

namespace Gateway

/-- JavaScript truthiness of a possibly-absent string: `undefined` and the
empty string are falsy, every other string is truthy. -/
def truthy : Option String → Bool
  | none => false
  | some s => !(s == "")

/-- The JS expression `a || b || ''` on possibly-absent strings: the first
truthy operand, or the empty string. -/
def jsOrStr (a b : Option String) : String :=
  if truthy a then a.getD "" else if truthy b then b.getD "" else ""

/-- Reading a property of a JS object modelled as an association list
(`obj[k]`): the value at the first matching key, if any. -/
def objGet (l : List (String × String)) (k : String) : Option String :=
  (l.find? (fun p => p.1 == k)).map (fun p => p.2)

/-- Writing a property of a JS object modelled as an association list
(`obj[k] = v`): replace the first entry with that key in place, else append. -/
def objSet (l : List (String × String)) (k v : String) : List (String × String) :=
  match l with
  | [] => [(k, v)]
  | p :: rest => if p.1 == k then (k, v) :: rest else p :: objSet rest k v

/-- JS `String.prototype.split` with a one-character separator, on a char
list: always returns at least one (possibly empty) piece. -/
def splitOnChar (sep : Char) : List Char → List (List Char)
  | [] => [[]]
  | c :: rest =>
    let r := splitOnChar sep rest
    if c == sep then [] :: r
    else
      match r with
      | h :: t => (c :: h) :: t
      | [] => [[c]]

/-- JS `s.split(sep)` for a one-character separator, on Lean strings. -/
def strSplitOn (sep : Char) (s : String) : List String :=
  (splitOnChar sep s.data).map (fun cs => String.mk cs)

/-- JS `String.prototype.trim` (restricted to ASCII whitespace, which is all
that occurs in header values here). -/
def jsTrim (s : String) : String :=
  String.mk (((s.data.dropWhile Char.isWhitespace).reverse.dropWhile Char.isWhitespace).reverse)

/-- JS `String.prototype.startsWith`. -/
def strStartsWith (s p : String) : Bool :=
  p.data.isPrefixOf s.data

/-- JS `String.prototype.toLowerCase` (header names are ASCII). -/
def jsToLower (s : String) : String :=
  String.mk (s.data.map Char.toLower)

/-- JS `charCodeAt` sequence of a string: its UTF-16 code units (astral
code points contribute a surrogate pair). -/
def codeUnits (s : String) : List Nat :=
  s.data.flatMap (fun c =>
    let n := c.toNat
    if n < 65536 then [n]
    else [55296 + (n - 65536) / 1024, 56320 + (n - 65536) % 1024])

/-! ## Authenticator (server.js `isValidToken`) -/

/-- server.js `isValidToken(t)`: `if (!t) return false; if
(VALID_TOKENS.length === 0) return false; return VALID_TOKENS.includes(t);`.
The token is absent (`undefined`) or a string; `!t` is true for `undefined`
and for the empty string. -/
def isValidToken (validTokens : List String) (t : Option String) : Bool :=
  match t with
  | none => false
  | some s =>
    if s == "" then false
    else if validTokens.length == 0 then false
    else validTokens.contains s

/-! ## CORS middleware (server.js lines 35–46) -/

/-- The `Access-Control-Allow-Origin` header value the CORS middleware sets
(`none` = the header is not set): the origin itself when it is truthy and a
member of a non-empty allow-list, `*` when the allow-list is empty, nothing
otherwise. -/
def corsAllowOrigin (allowedOrigins : List String) (origin : Option String) : Option String :=
  if truthy origin && !allowedOrigins.isEmpty && allowedOrigins.contains (origin.getD "") then
    some (origin.getD "")
  else if allowedOrigins.isEmpty then some "*"
  else none

/-! ## Header sanitization (server.js lines 136–142 and 170–175) -/

/-- The names the request-direction filter drops (server.js line 140). -/
def requestHeaderBlock : List String :=
  ["host", "connection", "content-length", "accept-encoding"]

/-- Request-direction header sanitization: the `outgoingHeaders` loop of the
/proxy handler keeps exactly the entries whose lowercased name is not in
`requestHeaderBlock`. -/
def requestStrip (hs : List (String × String)) : List (String × String) :=
  hs.filter (fun p => !(requestHeaderBlock.contains (jsToLower p.1)))

/-- The names the response-direction filter drops (server.js line 173). -/
def responseHeaderBlock : List String :=
  ["connection", "transfer-encoding", "keep-alive", "proxy-authorization",
   "proxy-authenticate", "te", "trailers", "upgrade"]

/-- Response-direction header sanitization of the /proxy handler. -/
def responseStrip (hs : List (String × String)) : List (String × String) :=
  hs.filter (fun p => !(responseHeaderBlock.contains (jsToLower p.1)))

/-- Modelled from the spec's words (for comparison with `requestStrip`):
request-direction sanitization that removes the full hop-by-hop set
`{connection, proxy-authorization, proxy-authenticate, keep-alive,
transfer-encoding, te, trailers, upgrade}` and additionally `host`,
`content-length` and `accept-encoding`. -/
def requestStripSpec (hs : List (String × String)) : List (String × String) :=
  hs.filter (fun p => !((responseHeaderBlock ++ ["host", "content-length", "accept-encoding"]).contains (jsToLower p.1)))

/-! ## FNV hash (server.js `hashStringToInt`) -/

/-- One step of the hash loop: `h ^= s.charCodeAt(i); h = Math.imul(h, 16777619);`
on the 32-bit accumulator bit pattern. -/
def fnvStep (h c : Nat) : Nat :=
  ((h ^^^ c) * 16777619) % 4294967296

/-- The accumulator after the whole loop, as an unsigned 32-bit value,
starting from `2166136261 >>> 0`. -/
def fnvAccum (cs : List Nat) : Nat :=
  cs.foldl fnvStep 2166136261

/-- JS `Math.abs` applied to the signed 32-bit reading of an unsigned
32-bit value `u`: `u` when `u < 2^31`, else `2^32 - u`. -/
def jsAbs32 (u : Nat) : Nat :=
  if u < 2147483648 then u else 4294967296 - u

/-- server.js `hashStringToInt(s)`: FNV-1a accumulation over the UTF-16 code
units followed by `Math.abs` of the signed 32-bit result. -/
def hashStringToInt (cs : List Nat) : Nat :=
  jsAbs32 (fnvAccum cs)

/-- Modelled from the spec's words (for comparison with `hashStringToInt`):
the 32-bit FNV-1a hash with the final accumulator taken in its non-negative
(unsigned) interpretation, which is the accumulator itself. -/
def fnvUnsignedSpec (cs : List Nat) : Nat :=
  fnvAccum cs

/-! ## `decodeURIComponent` / `encodeURIComponent` (JS builtins used by the
cookie fallback and the upstream URL construction) -/

/-- The value of a hex digit character, if it is one. -/
def hexDigitVal (c : Char) : Option Nat :=
  let n := c.toNat
  if 48 ≤ n && n ≤ 57 then some (n - 48)
  else if 97 ≤ n && n ≤ 102 then some (n - 87)
  else if 65 ≤ n && n ≤ 70 then some (n - 55)
  else none

/-- Whether a byte is a UTF-8 continuation byte. -/
def contByte (b : Nat) : Bool :=
  128 ≤ b && b < 192

/-- The UTF-8 bytes of one code point. -/
def utf8Bytes (c : Char) : List Nat :=
  let n := c.toNat
  if n < 128 then [n]
  else if n < 2048 then [192 + n / 64, 128 + n % 64]
  else if n < 65536 then [224 + n / 4096, 128 + (n / 64) % 64, 128 + n % 64]
  else [240 + n / 262144, 128 + (n / 4096) % 64, 128 + (n / 64) % 64, 128 + n % 64]

/-- Strict UTF-8 decoding of a byte list into code points; `none` on any
ill-formed sequence (overlongs, surrogates and out-of-range values are
rejected, as `decodeURIComponent` throws on them). -/
def utf8Decode : List Nat → Option (List Char)
  | [] => some []
  | b :: rest =>
    if b < 128 then (utf8Decode rest).map (fun cs => Char.ofNat b :: cs)
    else if b < 194 then none
    else if b < 224 then
      match rest with
      | c1 :: rest' =>
        if contByte c1 then
          (utf8Decode rest').map (fun cs => Char.ofNat ((b - 192) * 64 + (c1 - 128)) :: cs)
        else none
      | [] => none
    else if b < 240 then
      match rest with
      | c1 :: c2 :: rest' =>
        let code := (b - 224) * 4096 + (c1 - 128) * 64 + (c2 - 128)
        if contByte c1 && contByte c2 && 2048 ≤ code && !(55296 ≤ code && code < 57344) then
          (utf8Decode rest').map (fun cs => Char.ofNat code :: cs)
        else none
      | _ => none
    else if b < 245 then
      match rest with
      | c1 :: c2 :: c3 :: rest' =>
        let code := (b - 240) * 262144 + (c1 - 128) * 4096 + (c2 - 128) * 64 + (c3 - 128)
        if contByte c1 && contByte c2 && contByte c3 && 65536 ≤ code && code < 1114112 then
          (utf8Decode rest').map (fun cs => Char.ofNat code :: cs)
        else none
      | _ => none
    else none

/-- Percent-unescaping of a character sequence into bytes: `%XY` yields the
byte it denotes, any other character contributes its UTF-8 bytes; `none`
(a `URIError`) on a `%` not followed by two hex digits. -/
def percentBytes : List Char → Option (List Nat)
  | [] => some []
  | '%' :: a :: b :: rest =>
    match hexDigitVal a, hexDigitVal b with
    | some ha, some hb => (percentBytes rest).map (fun bs => (16 * ha + hb) :: bs)
    | _, _ => none
  | '%' :: _ => none
  | c :: rest => (percentBytes rest).map (fun bs => utf8Bytes c ++ bs)

/-- JS `decodeURIComponent`: percent-unescape, then strict UTF-8 decoding;
`none` models the `URIError` it throws on malformed input. -/
def decodeURIComponent (s : String) : Option String :=
  (percentBytes s.data).bind (fun bs => (utf8Decode bs).map (fun cs => String.mk cs))

/-- The characters `encodeURIComponent` leaves unescaped. -/
def uriUnescapedChar (c : Char) : Bool :=
  c.isAlpha || c.isDigit ||
    [Char.ofNat 45, Char.ofNat 95, Char.ofNat 46, Char.ofNat 33, Char.ofNat 126,
     Char.ofNat 42, Char.ofNat 39, Char.ofNat 40, Char.ofNat 41].contains c

/-- Upper-case hex digit of a value below 16. -/
def hexUpper (n : Nat) : Char :=
  if n < 10 then Char.ofNat (48 + n) else Char.ofNat (55 + n)

/-- JS `encodeURIComponent`: unescaped characters pass through, every other
code point is written as the `%XY` escapes of its UTF-8 bytes. -/
def encodeURIComponent (s : String) : String :=
  String.mk (s.data.flatMap (fun c =>
    if uriUnescapedChar c then [c]
    else (utf8Bytes c).flatMap (fun b => ['%', hexUpper (b / 16), hexUpper (b % 16)])))

/-! ## Node selection (server.js lines 79–102) -/

/-- server.js `pickNodeRoundRobin`: `const idx = (rrCounter++) % PROXY_NODES.length;
return PROXY_NODES[idx];` — the rotation counter is threaded explicitly as the
second component. -/
def pickNodeRoundRobin (nodes : List String) (st : Nat) : String × Nat :=
  (nodes.getD (st % nodes.length) "", st + 1)

/-- The nodes produced by `n` consecutive round-robin selections starting
from counter value `st`. -/
def rrTrace (nodes : List String) (st : Nat) : Nat → List String
  | 0 => []
  | Nat.succ n =>
    let p := pickNodeRoundRobin nodes st
    p.1 :: rrTrace nodes p.2 n

/-- An incoming request as the /proxy handler sees it: the Express-computed
peer address `req.ip`, the lowercased header object, the `token` and `url`
query parameters, and whether the rate-limiting middleware rejects it. -/
structure Request where
  ip : Option String
  headers : List (String × String)
  queryToken : Option String
  queryUrl : Option String
  overLimit : Bool

/-- server.js line 85: `(req.ip || req.headers['x-forwarded-for'] || '').split(',')[0] || ''`. -/
def clientIp (r : Request) : String :=
  (strSplitOn ',' (jsOrStr r.ip (objGet r.headers "x-forwarded-for"))).headD ""

/-- server.js line 91: the first `;`-separated, trimmed cookie that starts
with `proxy-node=`. -/
def cookieFound (r : Request) : Option String :=
  (((strSplitOn ';' ((objGet r.headers "cookie").getD "")).map jsTrim).find?
    (fun c => strStartsWith c "proxy-node="))

/-- server.js line 93: `cookie.split('=')[1] || ''`. -/
def cookieVal (c : String) : String :=
  (strSplitOn '=' c).getD 1 ""

/-- JS `Array.prototype.indexOf` on a string list: the index of the first
occurrence, `none` standing for `-1`. -/
def jsIndexOf (l : List String) (d : String) : Option Nat :=
  match l with
  | [] => none
  | x :: rest => if x == d then some 0 else (jsIndexOf rest d).map (fun i => i + 1)

/-- server.js `pickNodeStickyByIp`: hash a non-empty client identity, else
try the `proxy-node` cookie, else fall back to round-robin.  `none` models
the `URIError` thrown by `decodeURIComponent` on a malformed cookie value,
which aborts the request. -/
def pickNodeStickyByIp (nodes : List String) (st : Nat) (r : Request) :
    Option (String × Nat) :=
  let ip := clientIp r
  if ip == "" then
    match cookieFound r with
    | some c =>
      match decodeURIComponent (cookieVal c) with
      | none => none
      | some dec =>
        match jsIndexOf nodes dec with
        | some idx => some (nodes.getD idx "", st)
        | none => some (pickNodeRoundRobin nodes st)
    | none => some (pickNodeRoundRobin nodes st)
  else
    some (nodes.getD (hashStringToInt (codeUnits ip) % nodes.length) "", st)

/-- server.js `selectUpstream`. -/
def selectUpstream (nodes : List String) (mode : String) (st : Nat) (r : Request) :
    Option (String × Nat) :=
  if mode == "sticky_by_ip" then pickNodeStickyByIp nodes st r
  else some (pickNodeRoundRobin nodes st)

/-! ## Upstream URL construction (server.js line 134) -/

/-- JS `s.replace(/\/$/, '')`: remove one trailing slash, if present. -/
def stripOneTrailingSlash (s : String) : String :=
  if s.data.getLast? = some '/' then String.mk s.data.dropLast else s

/-- server.js line 134: the URL the gateway fetches,
`upstreamBase.replace(/\/$/,'') + '/proxy?url=' + encodeURIComponent(target)`. -/
def upstreamUrl (base target : String) : String :=
  stripOneTrailingSlash base ++ "/proxy?url=" ++ encodeURIComponent target

/-! ## The /proxy endpoint pipeline (server.js lines 118–166) -/

/-- The terminal result of the /proxy pipeline for one request, up to the
point where the upstream fetch is issued (`forwarded` records the upstream
URL and sanitized outgoing headers of that fetch). -/
inductive ProxyOutcome where
  | rateLimited
  | unauthorized
  | badUrl
  | badGateway
  | noUpstream
  | forwarded (upstreamUrl : String) (headers : List (String × String))
deriving DecidableEq, Repr

/-- server.js line 123: `const token = tokenFromHeader || tokenFromQuery`. -/
def selectedToken (r : Request) : Option String :=
  if truthy (objGet r.headers "x-proxy-auth") then objGet r.headers "x-proxy-auth"
  else r.queryToken

/-- server.js lines 144–149: force the client token into the outgoing
`x-proxy-auth` header, preferring the truthy header source. -/
def forwardAuth (tokenFromHeader tokenFromQuery : Option String)
    (hs : List (String × String)) : List (String × String) :=
  if truthy tokenFromHeader then objSet hs "x-proxy-auth" (tokenFromHeader.getD "")
  else if truthy tokenFromQuery then objSet hs "x-proxy-auth" (tokenFromQuery.getD "")
  else hs

/-- The /proxy route handler (server.js lines 118–166), after the
rate-limiting middleware has admitted the request.  `isUrlOk` abstracts the
WHATWG `new URL` validity check of `isValidUrl`. -/
def proxyHandler (validTokens nodes : List String) (mode : String)
    (isUrlOk : String → Bool) (st : Nat) (r : Request) : ProxyOutcome × Nat :=
  let tokenFromHeader := objGet r.headers "x-proxy-auth"
  let tokenFromQuery := r.queryToken
  let token := selectedToken r
  if !(isValidToken validTokens token) then (ProxyOutcome.unauthorized, st)
  else if !(truthy r.queryUrl) || !(isUrlOk (r.queryUrl.getD "")) then (ProxyOutcome.badUrl, st)
  else
    match selectUpstream nodes mode st r with
    | none => (ProxyOutcome.badGateway, st)
    | some (upstreamBase, st') =>
      if upstreamBase == "" then (ProxyOutcome.noUpstream, st')
      else
        (ProxyOutcome.forwarded (upstreamUrl upstreamBase (r.queryUrl.getD ""))
          (forwardAuth tokenFromHeader tokenFromQuery (requestStrip r.headers)), st')

/-- The whole /proxy endpoint: `app.all('/proxy', proxyLimiter, handler)` —
the rate-limiting middleware runs first and short-circuits with its own
result when the client is over the ceiling. -/
def proxyEndpoint (validTokens nodes : List String) (mode : String)
    (isUrlOk : String → Bool) (st : Nat) (r : Request) : ProxyOutcome × Nat :=
  if r.overLimit then (ProxyOutcome.rateLimited, st)
  else proxyHandler validTokens nodes mode isUrlOk st r

/-! ## Helper lemmas -/

/-- Reading back the property a JS object assignment just wrote. -/
theorem objGet_objSet (l : List (String × String)) (k v : String) :
    objGet (objSet l k v) k = some v := by
  induction l with
  | nil => simp [objSet, objGet]
  | cons p rest ih =>
    by_cases hp : p.1 == k
    · simp [objSet, hp, objGet]
    · simp only [objSet, hp, if_false, Bool.false_eq_true]
      simpa [objGet, List.find?, hp] using ih

/-- A found `indexOf` index reads back the element searched for. -/
theorem jsIndexOf_getD (l : List String) (d : String) :
    ∀ i, jsIndexOf l d = some i → l.getD i "" = d := by
  induction l with
  | nil => intro i h; simp [jsIndexOf] at h
  | cons x rest ih =>
    intro i h
    by_cases hx : x == d
    · simp only [jsIndexOf, hx, if_true] at h
      cases h
      simpa using hx
    · simp only [jsIndexOf, hx, if_false, Bool.false_eq_true, Option.map_eq_some'] at h
      obtain ⟨j, hj, rfl⟩ := h
      simpa using ih j hj

/-- `indexOf` finds a member. -/
theorem jsIndexOf_isSome_of_mem (l : List String) (d : String) (h : d ∈ l) :
    ∃ i, jsIndexOf l d = some i := by
  induction l with
  | nil => cases h
  | cons x rest ih =>
    by_cases hx : x == d
    · exact ⟨0, by simp [jsIndexOf, hx]⟩
    · have hd : d ∈ rest := by
        cases h with
        | head => simp at hx
        | tail _ h' => exact h'
      obtain ⟨i, hi⟩ := ih hd
      exact ⟨i + 1, by simp [jsIndexOf, hx, hi]⟩

/-- `indexOf` misses a non-member. -/
theorem jsIndexOf_eq_none_of_not_mem (l : List String) (d : String) (h : d ∉ l) :
    jsIndexOf l d = none := by
  induction l with
  | nil => rfl
  | cons x rest ih =>
    have hx : (x == d) = false := by
      simp only [beq_eq_false_iff_ne, ne_eq]
      intro hxd
      exact h (hxd ▸ List.mem_cons_self x rest)
    have hr : jsIndexOf rest d = none := ih (fun hm => h (List.mem_cons_of_mem x hm))
    simp [jsIndexOf, hx, hr]

/-- The round-robin trace written out: the `i`-th of `n` selections starting
from counter `st` is the node at index `(st + i) mod length`. -/
theorem rrTrace_eq_map (nodes : List String) :
    ∀ (n st : Nat), rrTrace nodes st n =
      (List.range n).map (fun i => nodes.getD ((st + i) % nodes.length) "") := by
  intro n
  induction n with
  | zero => intro st; rfl
  | succ n ih =>
    intro st
    show (pickNodeRoundRobin nodes st).1 ::
        rrTrace nodes (pickNodeRoundRobin nodes st).2 n = _
    rw [List.range_succ_eq_map, List.map_cons, List.map_map]
    refine congrArg₂ List.cons ?_ ?_
    · show nodes.getD (st % nodes.length) "" = nodes.getD ((st + 0) % nodes.length) ""
      rw [Nat.add_zero]
    · show rrTrace nodes (st + 1) n = _
      rw [ih (st + 1)]
      congr 1
      funext i
      simp only [Function.comp]
      congr 2
      omega

/-- Indexing a list at each position in order rebuilds the list. -/
theorem getD_range_map (l : List String) :
    (List.range l.length).map (fun i => l.getD i "") = l := by
  induction l with
  | nil => rfl
  | cons x t ih =>
    rw [List.length_cons, List.range_succ_eq_map, List.map_cons, List.map_map]
    exact congrArg₂ List.cons rfl ih

/-- Shifting then reducing mod `N` permutes the first `N` indices. -/
theorem range_mod_shift_perm (N st : Nat) (h : 0 < N) :
    ((List.range N).map (fun i => (st + i) % N)).Perm (List.range N) := by
  have hnd : ((List.range N).map (fun i => (st + i) % N)).Nodup := by
    refine List.Nodup.map_on ?_ (List.nodup_range N)
    intro x hx y hy hxy
    rw [List.mem_range] at hx hy
    have hxy' : x % N = y % N := Nat.ModEq.add_left_cancel' st hxy
    rw [Nat.mod_eq_of_lt hx, Nat.mod_eq_of_lt hy] at hxy'
    exact hxy'
  have hsub : ((List.range N).map (fun i => (st + i) % N)) ⊆ List.range N := by
    intro a ha
    rw [List.mem_map] at ha
    obtain ⟨i, _, rfl⟩ := ha
    rw [List.mem_range]
    exact Nat.mod_lt _ h
  exact (List.subperm_of_subset hnd hsub).perm_of_length_le (by simp)

/-! ## Claim theorems -/

/-- C1 (counterexample): the claim is false on the code — the
request-direction filter forwards an `upgrade` header unchanged, while the
sanitization described by the claim would remove it. -/
theorem C1_counterexample :
    requestStrip [("upgrade", "websocket")] = [("upgrade", "websocket")] ∧
    requestStripSpec [("upgrade", "websocket")] = [] := by
  exact ⟨rfl, rfl⟩

/-- C1 (amended): the request-direction sanitization removes, case-
insensitively, exactly the headers named host, connection, content-length
and accept-encoding; every header with any other name (including the
remaining hop-by-hop names) passes through unchanged. -/
theorem C1_request_strip_exact (hs : List (String × String)) (k v : String) :
    (k, v) ∈ requestStrip hs ↔
      ((k, v) ∈ hs ∧ requestHeaderBlock.contains (jsToLower k) = false) := by
  simp [requestStrip, List.mem_filter]

/-- C2 (counterexample): for the identity "a" the hash the code computes is
the absolute value of the signed 32-bit accumulator (468965076), not its
unsigned interpretation (3826002220), and with three configured nodes the
two interpretations select different nodes. -/
theorem C2_counterexample :
    hashStringToInt (codeUnits "a") = 468965076 ∧
    fnvUnsignedSpec (codeUnits "a") = 3826002220 ∧
    hashStringToInt (codeUnits "a") ≠ fnvUnsignedSpec (codeUnits "a") ∧
    pickNodeStickyByIp ["n0", "n1", "n2"] 0
      { ip := some "a", headers := [], queryToken := none,
        queryUrl := none, overLimit := false } = some ("n0", 0) ∧
    ["n0", "n1", "n2"].getD (fnvUnsignedSpec (codeUnits "a") % 3) "" = "n1" := by
  refine ⟨?_, ?_, ?_, ?_, ?_⟩ <;> decide

/-- C2 (amended): the hash used by sticky selection is the 32-bit FNV-1a
accumulation over the identity's UTF-16 code units followed by `Math.abs`
of the signed 32-bit reading of the accumulator (`u` when `u < 2^31`, else
`2^32 - u`), and for a non-empty identity sticky selection returns
`nodes[hash(identity) mod node_count]` without touching the rotation
counter. -/
theorem C2_sticky_hash_abs (nodes : List String) (st : Nat) (r : Request)
    (h : clientIp r ≠ "") :
    pickNodeStickyByIp nodes st r =
      some (nodes.getD (hashStringToInt (codeUnits (clientIp r)) % nodes.length) "", st) ∧
    ∀ cs : List Nat, hashStringToInt cs =
      (if fnvAccum cs < 2147483648 then fnvAccum cs else 4294967296 - fnvAccum cs) := by
  constructor
  · have hb : (clientIp r == "") = false := by simpa using h
    simp only [pickNodeStickyByIp, hb, Bool.false_eq_true, if_false]
  · intro cs
    rfl

/-- C2 witness: the amended statement at the concrete identity "a" with
three nodes and counter 5. -/
theorem C2_sticky_hash_abs_witness :
    pickNodeStickyByIp ["n0", "n1", "n2"] 5
      { ip := some "a", headers := [], queryToken := none,
        queryUrl := none, overLimit := false } = some ("n0", 5) := by
  have h := (C2_sticky_hash_abs ["n0", "n1", "n2"] 5
    { ip := some "a", headers := [], queryToken := none,
      queryUrl := none, overLimit := false } (by decide)).1
  rw [h]
  decide

/-- C7: token validation fails exactly when the token is absent or empty,
the configured set is empty (fail-closed), or the token is not a member of
the configured set. -/
theorem C7_fail_closed (vt : List String) (t : Option String) :
    isValidToken vt t = false ↔
      (t = none ∨ t = some "" ∨ vt = [] ∨ ∀ s, t = some s → vt.contains s = false) := by
  cases t with
  | none => simp [isValidToken]
  | some s =>
    rcases eq_or_ne s "" with hs | hs
    · subst hs; simp [isValidToken]
    · rcases eq_or_ne vt [] with hv | hv
      · subst hv; simp [isValidToken, hs]
      · simp [isValidToken, hs, hv, List.length_eq_zero]

/-- C8: header sanitization is idempotent in both directions. -/
theorem C8_strip_idempotent (hs : List (String × String)) :
    requestStrip (requestStrip hs) = requestStrip hs ∧
    responseStrip (responseStrip hs) = responseStrip hs := by
  constructor <;> simp [requestStrip, responseStrip, List.filter_filter]

/-- C9 (counterexample): the claim is false for a configured base that
already ends in a slash — only one trailing slash is stripped, so the base
and the base with one more slash appended build different upstream URLs. -/
theorem C9_counterexample :
    upstreamUrl "http://u/" "x" = "http://u/proxy?url=x" ∧
    upstreamUrl ("http://u/" ++ "/") "x" = "http://u//proxy?url=x" ∧
    upstreamUrl "http://u/" "x" ≠ upstreamUrl ("http://u/" ++ "/") "x" := by
  refine ⟨?_, ?_, ?_⟩ <;> decide

/-- C9 (amended): for every upstream base that does not already end in a
slash and every target, the upstream URL built from the base equals the one
built from the base with one trailing slash appended. -/
theorem C9_slash_normalization (b t : String) (h : b.data.getLast? ≠ some '/') :
    upstreamUrl b t = upstreamUrl (b ++ "/") t := by
  have hd : (b ++ "/").data = b.data ++ ['/'] := by
    cases b
    rfl
  have h1 : stripOneTrailingSlash b = b := by
    rw [stripOneTrailingSlash, if_neg h]
  have h2 : stripOneTrailingSlash (b ++ "/") = b := by
    rw [stripOneTrailingSlash, hd, List.getLast?_concat, List.dropLast_concat, if_pos rfl]
  rw [upstreamUrl, upstreamUrl, h1, h2]

/-- C9 witness: the amended statement at a concrete slashless base. -/
theorem C9_slash_normalization_witness :
    upstreamUrl "http://u" "x" = upstreamUrl ("http://u" ++ "/") "x" :=
  C9_slash_normalization "http://u" "x" (by decide)

/-- C3 (counterexample): the claim is false on the code — a request that is
over its rate-limit ceiling and carries an invalid token receives the
rate-limit result, not the authorization-failure result, because the
limiter is middleware that runs before the handler's token check. -/
theorem C3_counterexample :
    proxyEndpoint ["secret"] ["http://u"] "round_robin" (fun _ => true) 0
      { ip := none, headers := [], queryToken := some "bad",
        queryUrl := some "http://t", overLimit := true } = (ProxyOutcome.rateLimited, 0) ∧
    isValidToken ["secret"] (selectedToken
      { ip := none, headers := [], queryToken := some "bad",
        queryUrl := some "http://t", overLimit := true }) = false ∧
    ProxyOutcome.rateLimited ≠ ProxyOutcome.unauthorized := by
  refine ⟨?_, ?_, ?_⟩ <;> decide

/-- C3 (amended): rate-limiter admission is evaluated first, as middleware:
an over-limit request receives the rate-limit result regardless of its
token, and only admitted requests have their token validated, an invalid
one yielding the authorization-failure result. -/
theorem C3_limiter_first (vt nodes : List String) (mode : String)
    (isUrlOk : String → Bool) (st : Nat) (r : Request) :
    (r.overLimit = true →
      proxyEndpoint vt nodes mode isUrlOk st r = (ProxyOutcome.rateLimited, st)) ∧
    (r.overLimit = false → isValidToken vt (selectedToken r) = false →
      proxyEndpoint vt nodes mode isUrlOk st r = (ProxyOutcome.unauthorized, st)) := by
  constructor
  · intro hov
    rw [proxyEndpoint, if_pos hov]
  · intro hov hval
    rw [proxyEndpoint, if_neg (by simp [hov])]
    simp [proxyHandler, hval]

/-- C4: under serialized access, `N` consecutive round-robin selections
return each configured node exactly once (a permutation of the node list),
in list order whenever the counter is aligned with the start of a cycle
(in particular from the initial counter 0); the counter increments exactly
once per selection and the selected index is the counter value modulo `N`. -/
theorem C4_round_robin (nodes : List String) (st : Nat) (h : nodes ≠ []) :
    (rrTrace nodes st nodes.length).Perm nodes ∧
    (st % nodes.length = 0 → rrTrace nodes st nodes.length = nodes) ∧
    (pickNodeRoundRobin nodes st).2 = st + 1 ∧
    (pickNodeRoundRobin nodes st).1 = nodes.getD (st % nodes.length) "" := by
  have hN : 0 < nodes.length := List.length_pos.mpr h
  refine ⟨?_, ?_, rfl, rfl⟩
  · rw [rrTrace_eq_map]
    rw [show (fun i => nodes.getD ((st + i) % nodes.length) "")
        = (fun j => nodes.getD j "") ∘ (fun i => (st + i) % nodes.length) from rfl,
      ← List.map_map]
    have hp := (range_mod_shift_perm nodes.length st hN).map (fun j => nodes.getD j "")
    have he : (List.map (fun j => nodes.getD j "") (List.range nodes.length)).Perm nodes := by
      rw [getD_range_map]
    exact hp.trans he
  · intro h0
    rw [rrTrace_eq_map]
    have hcong : ∀ i ∈ List.range nodes.length,
        nodes.getD ((st + i) % nodes.length) "" = nodes.getD i "" := by
      intro i hi
      rw [List.mem_range] at hi
      congr 2
      rw [Nat.add_mod, h0, Nat.zero_add, Nat.mod_eq_of_lt (Nat.mod_lt i hN),
        Nat.mod_eq_of_lt hi]
    rw [List.map_congr_left hcong, getD_range_map]

/-- C4 witness: the round-robin invariants at a concrete three-node list
and counter 0. -/
theorem C4_round_robin_witness :
    (rrTrace ["u1", "u2", "u3"] 0 (["u1", "u2", "u3"] : List String).length).Perm
      ["u1", "u2", "u3"] ∧
    (0 % (["u1", "u2", "u3"] : List String).length = 0 →
      rrTrace ["u1", "u2", "u3"] 0 (["u1", "u2", "u3"] : List String).length =
        ["u1", "u2", "u3"]) ∧
    (pickNodeRoundRobin ["u1", "u2", "u3"] 0).2 = 0 + 1 ∧
    (pickNodeRoundRobin ["u1", "u2", "u3"] 0).1 =
      ["u1", "u2", "u3"].getD (0 % (["u1", "u2", "u3"] : List String).length) "" :=
  C4_round_robin ["u1", "u2", "u3"] 0 (by decide)

/-- C5 (counterexample): the claim is false on the code — when the
`x-proxy-auth` header is present with the empty value and the query carries
a valid token, the query token is the one validated and forwarded (the
empty header value is falsy, so `tokenFromHeader || tokenFromQuery` takes
the query), while the claim demands the header value win whenever the
header is present. -/
theorem C5_counterexample :
    proxyEndpoint ["secret"] ["http://u"] "round_robin" (fun _ => true) 0
      { ip := none, headers := [("x-proxy-auth", "")], queryToken := some "secret",
        queryUrl := some "http://t", overLimit := false } =
      (ProxyOutcome.forwarded "http://u/proxy?url=http%3A%2F%2Ft"
        [("x-proxy-auth", "secret")], 1) ∧
    objGet [("x-proxy-auth", "")] "x-proxy-auth" = some "" ∧
    ("secret" : String) ≠ "" := by
  refine ⟨?_, ?_, ?_⟩ <;> decide

/-- C5 (amended): when the `x-proxy-auth` header is present with a
non-empty value, that value is the one validated and the one forwarded
upstream; the query-parameter token is used only when the header is absent
or empty. -/
theorem C5_header_wins (vt nodes : List String) (mode : String) (isUrlOk : String → Bool)
    (st : Nat) (r : Request) (h : String)
    (hh : objGet r.headers "x-proxy-auth" = some h) (hne : h ≠ "") :
    selectedToken r = some h ∧
    (∀ u hs st', proxyEndpoint vt nodes mode isUrlOk st r = (ProxyOutcome.forwarded u hs, st') →
      objGet hs "x-proxy-auth" = some h) ∧
    (∀ r' : Request, truthy (objGet r'.headers "x-proxy-auth") = false →
      selectedToken r' = r'.queryToken) := by
  have htr : truthy (objGet r.headers "x-proxy-auth") = true := by
    rw [hh]
    simpa [truthy] using hne
  refine ⟨?_, ?_, ?_⟩
  · rw [selectedToken, if_pos htr, hh]
  · intro u hs st' heq
    rw [proxyEndpoint] at heq
    by_cases hov : r.overLimit
    · rw [if_pos hov] at heq
      exact absurd heq (by simp)
    · rw [if_neg hov] at heq
      simp only [proxyHandler] at heq
      split at heq
      · exact absurd heq (by simp)
      · split at heq
        · exact absurd heq (by simp)
        · split at heq
          · exact absurd heq (by simp)
          · split at heq
            · exact absurd heq (by simp)
            · rw [Prod.mk.injEq] at heq
              obtain ⟨h1, _⟩ := heq
              rw [ProxyOutcome.forwarded.injEq] at h1
              obtain ⟨_, h1b⟩ := h1
              rw [← h1b, forwardAuth, if_pos htr, objGet_objSet, hh]
              rfl
  · intro r' h'
    simp [selectedToken, h']

/-- C5 witness: the amended statement at a concrete request carrying both a
non-empty header token and a query token. -/
theorem C5_header_wins_witness :
    selectedToken
      { ip := none, headers := [("x-proxy-auth", "tok")], queryToken := some "q",
        queryUrl := some "http://t", overLimit := false } = some "tok" :=
  (C5_header_wins [] [] "round_robin" (fun _ => true) 0
    { ip := none, headers := [("x-proxy-auth", "tok")], queryToken := some "q",
      queryUrl := some "http://t", overLimit := false } "tok" (by decide) (by decide)).1

/-- C6 (counterexample): the claim is false on the code — with no derivable
identity and a `proxy-node` cookie whose raw value `a=b` URL-decodes to the
configured node `a=b`, the code keeps only the part before the second `=`
(`a`), misses the node list, and falls back to round-robin, returning `n0`
and bumping the counter instead of returning that node. -/
theorem C6_counterexample :
    pickNodeStickyByIp ["n0", "a=b"] 0
      { ip := none, headers := [("cookie", "proxy-node=a=b")], queryToken := none,
        queryUrl := none, overLimit := false } = some ("n0", 1) ∧
    decodeURIComponent "a=b" = some "a=b" ∧
    ("a=b" ∈ (["n0", "a=b"] : List String)) ∧
    ¬ (some (("n0" : String), (1 : Nat)) = some (("a=b" : String), (0 : Nat))) := by
  refine ⟨?_, ?_, ?_, ?_⟩ <;> decide

/-- C6 (amended): in sticky mode with no derivable identity, if the portion
of the first `proxy-node` cookie between the first and second `=` sign
URL-decodes to a currently configured node, sticky selection returns that
node with the rotation counter untouched; if it decodes to a non-member, or
no such cookie is present, selection falls back to round-robin; a value on
which URL-decoding throws aborts the request instead. -/
theorem C6_cookie_fallback (nodes : List String) (st : Nat) (r : Request)
    (hip : clientIp r = "") :
    (∀ c d, cookieFound r = some c → decodeURIComponent (cookieVal c) = some d →
      ((d ∈ nodes → pickNodeStickyByIp nodes st r = some (d, st)) ∧
       (d ∉ nodes → pickNodeStickyByIp nodes st r = some (pickNodeRoundRobin nodes st)))) ∧
    (cookieFound r = none → pickNodeStickyByIp nodes st r = some (pickNodeRoundRobin nodes st)) ∧
    (∀ c, cookieFound r = some c → decodeURIComponent (cookieVal c) = none →
      pickNodeStickyByIp nodes st r = none) := by
  refine ⟨?_, ?_, ?_⟩
  · intro c d hc hd
    constructor
    · intro hmem
      obtain ⟨i, hi⟩ := jsIndexOf_isSome_of_mem nodes d hmem
      have hgd := jsIndexOf_getD nodes d i hi
      simp [pickNodeStickyByIp, hip, hc, hd, hi]
      simpa using hgd
    · intro hmem
      have hi := jsIndexOf_eq_none_of_not_mem nodes d hmem
      simp [pickNodeStickyByIp, hip, hc, hd, hi]
  · intro hc
    simp [pickNodeStickyByIp, hip, hc]
  · intro c hc hd
    simp [pickNodeStickyByIp, hip, hc, hd]

/-- C6 witness: the amended statement at a concrete cookie naming the
configured node `u2`. -/
theorem C6_cookie_fallback_witness :
    pickNodeStickyByIp ["u1", "u2"] 7
      { ip := none, headers := [("cookie", "proxy-node=u2")], queryToken := none,
        queryUrl := none, overLimit := false } = some ("u2", 7) :=
  ((C6_cookie_fallback ["u1", "u2"] 7
      { ip := none, headers := [("cookie", "proxy-node=u2")], queryToken := none,
        queryUrl := none, overLimit := false } (by decide)).1 "proxy-node=u2" "u2"
      (by decide) (by decide)).1 (by decide)

/-- C10 (counterexample): the claim's second half is false on the code —
an allow-list containing the literal `*` together with a request whose
Origin header is `*` makes the reflecting branch emit the value `*` even
though the allow-list is not empty. -/
theorem C10_counterexample :
    corsAllowOrigin ["*"] (some "*") = some "*" ∧ (["*"] : List String) ≠ [] := by
  refine ⟨?_, ?_⟩ <;> decide

/-- C10 (amended): with a non-empty allow-list and an Origin that is absent
or not a member, no `Access-Control-Allow-Origin` header is set at all; and
the value `*` is emitted only when the allow-list is empty or when `*` is
itself the reflected member Origin. -/
theorem C10_cors (allowed : List String) (origin : Option String)
    (hne : allowed ≠ [])
    (h : origin.all (fun s => !(allowed.contains s)) = true) :
    corsAllowOrigin allowed origin = none ∧
    (∀ a o, corsAllowOrigin a o = some "*" → a = [] ∨ o = some "*") := by
  constructor
  · have hie : allowed.isEmpty = false := by simpa [List.isEmpty_iff] using hne
    cases origin with
    | none => simp [corsAllowOrigin, truthy, hie]
    | some s =>
      have hm : s ∉ allowed := by simpa using h
      simp [corsAllowOrigin, hie, hm]
  · intro a o hv
    rcases eq_or_ne a [] with ha | ha
    · exact Or.inl ha
    · right
      have hie : a.isEmpty = false := by simpa [List.isEmpty_iff] using ha
      cases o with
      | none => simp [corsAllowOrigin, truthy, hie] at hv
      | some s =>
        rw [corsAllowOrigin] at hv
        split at hv
        · simp only [Option.getD_some, Option.some.injEq] at hv
          rw [hv]
        · simp [hie] at hv

/-- C10 witness: the amended statement at a concrete non-member Origin. -/
theorem C10_cors_witness :
    corsAllowOrigin ["http://a"] (some "http://b") = none :=
  (C10_cors ["http://a"] (some "http://b") (by decide) (by decide)).1

end Gateway
